import Mathlib

/-!
# once: a one-shot file server

A shallow embedding of `once.go` (package `main` of `github.com/afq984/once`).

* Go strings are Lean `String`s, `[]byte` is `List Nat` (each entry below 256).
* `Handler.Done` is a `chan struct{}` on which nothing is ever sent, so its state is
  either still open (`Chan.pending`) or closed (`Chan.closed`).  The Go builtin `close`
  panics on a closed channel; a panic is carried as `Outcome.panic`.
* A handler call is a function of the handler, the request and the answers the outside
  world gives during the call (`Env`); it returns the calls made on the response writer and
  on the operating system, in order, together with the new state of `Done`.
* `main` is a step relation over `Sys`: request handling, the timer goroutine of
  `time.AfterFunc` and the goroutine waiting on `Done` interleave.
-/

namespace Once

/-! ## Data model -/

/-- State of the channel `Done chan struct{}`. -/
inductive Chan where
  | pending
  | closed
  deriving DecidableEq, Repr

/-- Go builtin `close(c)`: closing a closed channel panics. -/
def closeChan : Chan → Except String Chan
  | .pending => .ok .closed
  | .closed => .error "close of closed channel"

/-- An opened `*os.File`: its bytes and the modification time `Stat` reports. -/
structure File where
  content : List Nat
  modTime : Int
  deriving DecidableEq, Repr

/-- What `http.ServeContent` did with the response: the status line it chose (200, 206, 304,
416) and how many bytes it wrote to the response before the transfer ended or was aborted.
The handler never looks at it. -/
structure StreamResult where
  status : Nat
  sent : Nat
  deriving DecidableEq, Repr

/-- The fields of `*http.Request` the handler reads: `r.Method` and `r.URL.Path`. -/
structure Request where
  Method : String
  Path : String
  deriving DecidableEq, Repr

/-- Answers of the outside world during one handler call: the result of
`os.Open(h.Filename)` (`none` is an error) and the outcome of `http.ServeContent`. -/
structure Env where
  file : Option File
  stream : StreamResult
  deriving DecidableEq, Repr

/-- The struct `Handler`. -/
structure Handler where
  Basename : String
  Filename : String
  FileSize : Int
  ModTime : Int
  Sha1Sum : String
  Sha256Sum : String
  EntryURL : String
  DownloadURL : String
  Done : Chan
  deriving DecidableEq, Repr

/-- The fields of the handler that `HTMLTemplate` reads. -/
structure Page where
  Basename : String
  DownloadURL : String
  FileSize : Int
  Sha1Sum : String
  Sha256Sum : String
  deriving DecidableEq, Repr

/-- The data `HTMLTemplate.Execute(w, h)` renders. -/
def Handler.page (h : Handler) : Page :=
  { Basename := h.Basename, DownloadURL := h.DownloadURL, FileSize := h.FileSize,
    Sha1Sum := h.Sha1Sum, Sha256Sum := h.Sha256Sum }

/-- Calls a handler makes on its response writer and on the operating system. -/
inductive Event where
  /-- The call `http.Error(w, msg, code)`. -/
  | httpError (msg : String) (code : Nat)
  /-- The call `HTMLTemplate.Execute(w, h)`. -/
  | templateExecute (p : Page)
  /-- The call `os.Open(name)` and whether it succeeded. -/
  | osOpen (name : String) (ok : Bool)
  /-- The call `w.Header().Set(key, value)`. -/
  | headerSet (key value : String)
  /-- The call `http.ServeContent(w, r, name, modtime, file)` and its outcome. -/
  | serveContent (r : Request) (name : String) (modtime : Int) (file : File)
      (res : StreamResult)
  /-- The deferred `file.Close()`. -/
  | fileClose (file : File)
  /-- The call `log.Println(msg)`. -/
  | logPrintln (msg : String)
  deriving DecidableEq, Repr

/-- Result of running a handler or callback: the calls it made, the state of `Done`
afterwards, and the panic value when it did not return normally. -/
structure Outcome where
  events : List Event
  Done : Chan
  panic : Option String
  deriving DecidableEq, Repr

/-- Status code of the response: `http.Error` writes its code, the first write of the
template writes 200, `http.ServeContent` writes the status it chose. -/
def statusOf : List Event → Option Nat
  | [] => none
  | .httpError _ code :: _ => some code
  | .templateExecute _ :: _ => some 200
  | .serveContent _ _ _ _ res :: _ => some res.status
  | _ :: rest => statusOf rest

/-- Whether a call is `http.ServeContent`. -/
def Event.isServeContent : Event → Bool
  | .serveContent _ _ _ _ _ => true
  | _ => false

/-- Whether a call is `os.Open`. -/
def Event.isOpen : Event → Bool
  | .osOpen _ _ => true
  | _ => false

/-- The response streamed file content: `http.ServeContent` was called. -/
def Outcome.streamed (o : Outcome) : Bool := o.events.any Event.isServeContent

/-- The handler opened a file: `os.Open` was called. -/
def Outcome.opened (o : Outcome) : Bool := o.events.any Event.isOpen

/-! ## The handler -/

/-- `http.MethodGet`. -/
def MethodGet : String := "GET"

/-- `http.StatusBadRequest`. -/
def StatusBadRequest : Nat := 400

/-- `http.StatusNotFound`. -/
def StatusNotFound : Nat := 404

/-- `http.StatusInternalServerError`. -/
def StatusInternalServerError : Nat := 500

/-- `Handler.HandleDownload`.  The deferred `file.Close()` runs both on normal return and
while the panic of `close(h.Done)` unwinds. -/
def HandleDownload (h : Handler) (r : Request) (env : Env) : Outcome :=
  match env.file with
  | none =>
    { events := [.osOpen h.Filename false,
                 .httpError "Oops Open" StatusInternalServerError],
      Done := h.Done, panic := none }
  | some file =>
    let served : List Event :=
      [.osOpen h.Filename true,
       .headerSet "Content-Type" "application/octet-stream",
       .serveContent r h.Basename h.ModTime file env.stream]
    match closeChan h.Done with
    | .ok d => { events := served ++ [.fileClose file], Done := d, panic := none }
    | .error e => { events := served ++ [.fileClose file], Done := h.Done, panic := some e }

/-- `Handler.ServeHTTP`.  The `switch` tries its cases in order, so `h.EntryURL` is
compared first. -/
def ServeHTTP (h : Handler) (r : Request) (env : Env) : Outcome :=
  if r.Method ≠ MethodGet then
    { events := [.httpError "Bad Request" StatusBadRequest], Done := h.Done, panic := none }
  else if r.Path = h.EntryURL then
    { events := [.templateExecute h.page], Done := h.Done, panic := none }
  else if r.Path = h.DownloadURL then
    HandleDownload h r env
  else
    { events := [.httpError "Not Found" StatusNotFound], Done := h.Done, panic := none }

/-- The function passed to `time.AfterFunc` in `main`. -/
def timerCallback (done : Chan) : Outcome :=
  let logged : List Event :=
    [.logPrintln "Shutting down automatically after configured timeout"]
  match closeChan done with
  | .ok d => { events := logged, Done := d, panic := none }
  | .error e => { events := logged, Done := done, panic := some e }

/-! ## Session construction -/

/-- Unix `os.IsPathSeparator`. -/
def isPathSeparator (c : Char) : Bool := c = '/'

/-- Unix `filepath.Base` (the volume name is empty): the empty path gives `"."`, trailing
separators are stripped, the part after the last separator is kept, and a path of
separators only gives `"/"`. -/
def Base (path : String) : String :=
  if path = "" then "."
  else
    let stripped := (path.data.reverse.dropWhile isPathSeparator).reverse
    let last := (stripped.reverse.takeWhile (fun c => !isPathSeparator c)).reverse
    if last = [] then "/" else String.mk last

/-- The alphabet of `base64.URLEncoding`. -/
def encodeURL : String := "ABCDEFGHIJKLMNOPQRSTUVWXYZabcdefghijklmnopqrstuvwxyz0123456789-_"

/-- The table lookup `enc.encode[i]`. -/
def encodeAt (i : Nat) : Char := encodeURL.data.getD i 'A'

/-- `Encoding.Encode` of `base64.RawURLEncoding` (no padding): three bytes give four
characters, a rest of two bytes gives three characters, a rest of one byte gives two. -/
def Encode : List Nat → List Char
  | b0 :: b1 :: b2 :: rest =>
    let val := b0 <<< 16 ||| b1 <<< 8 ||| b2
    encodeAt (val >>> 18 &&& 0x3F) :: encodeAt (val >>> 12 &&& 0x3F) ::
      encodeAt (val >>> 6 &&& 0x3F) :: encodeAt (val &&& 0x3F) :: Encode rest
  | [b0, b1] =>
    let val := b0 <<< 16 ||| b1 <<< 8
    [encodeAt (val >>> 18 &&& 0x3F), encodeAt (val >>> 12 &&& 0x3F),
     encodeAt (val >>> 6 &&& 0x3F)]
  | [b0] =>
    let val := b0 <<< 16
    [encodeAt (val >>> 18 &&& 0x3F), encodeAt (val >>> 12 &&& 0x3F)]
  | [] => []

/-- `base64.RawURLEncoding.EncodeToString`. -/
def EncodeToString (src : List Nat) : String := String.mk (Encode src)

/-- Characters allowed in a token: `A`-`Z`, `a`-`z`, `0`-`9`, `-` and `_`. -/
def urlSafe (c : Char) : Bool := c.isAlphanum || c = '-' || c = '_'

/-- Lower-case hexadecimal digit of a value below 16. -/
def hexDigit (n : Nat) : Char := "0123456789abcdef".data.getD n '0'

/-- `fmt.Sprintf("%x", sum)` for a byte slice: two lower-case hexadecimal digits a byte. -/
def sprintfHex (sum : List Nat) : String :=
  String.mk (sum.flatMap (fun b => [hexDigit (b / 16 % 16), hexDigit (b % 16)]))

/-- Answers of the outside world while `makeHandler` runs: the result of
`os.Open(filename)`, whether `file.Stat()` and `io.Copy` succeed, the digests the two hash
objects return, and the 32 bytes `rand.Read` stores (`none` is an error). -/
structure StartEnv where
  file : Option File
  statOk : Bool
  copyOk : Bool
  sha1 : List Nat
  sha256 : List Nat
  rand : Option (List Nat)
  deriving DecidableEq, Repr

/-- `makeHandler`: every error of the outside world is a panic. -/
def makeHandler (filename : String) (env : StartEnv) : Except String Handler :=
  match env.file with
  | none => .error "open"
  | some file =>
    if !env.statOk then .error "stat"
    else if !env.copyOk then .error "copy"
    else
      match env.rand with
      | none => .error "rand"
      | some randBytes =>
        let basename := Base filename
        let entryURL := "/" ++ EncodeToString randBytes
        .ok { Filename := filename
              Done := .pending
              ModTime := file.modTime
              FileSize := file.content.length
              Sha1Sum := sprintfHex env.sha1
              Sha256Sum := sprintfHex env.sha256
              Basename := basename
              EntryURL := entryURL
              DownloadURL := entryURL ++ "/" ++ basename }

/-- A world in which every step of `makeHandler` succeeds. -/
def StartEnv.good (file : File) (sha1 sha256 randBytes : List Nat) : StartEnv :=
  { file := some file, statOk := true, copyOk := true, sha1 := sha1, sha256 := sha256,
    rand := some randBytes }

/-! ## Sequences of calls -/

/-- The handler after a call.  No method assigns a field of the handler; the only change a
call can make is to close `Done`. -/
def Handler.after (h : Handler) (o : Outcome) : Handler := { h with Done := o.Done }

/-- A trigger of the completion signal: a `HandleDownload` whose open succeeded and which
reaches `close(h.Done)` after `http.ServeContent`, or the timer callback of `main`. -/
inductive Trigger where
  | download (r : Request) (file : File) (res : StreamResult)
  | timer
  deriving DecidableEq, Repr

/-- Run one trigger on the handler. -/
def Trigger.fire (h : Handler) : Trigger → Outcome
  | .download r file res => HandleDownload h r { file := some file, stream := res }
  | .timer => timerCallback h.Done

/-- Run triggers one after the other on the same handler. -/
def fireAll (h : Handler) : List Trigger → List Outcome
  | [] => []
  | t :: ts => t.fire h :: fireAll (h.after (t.fire h)) ts

/-- Serve requests one after the other with the same handler; returns the outcomes and the
handler after the last request. -/
def serveAll (h : Handler) : List (Request × Env) → List Outcome × Handler
  | [] => ([], h)
  | (r, env) :: rest =>
    let o := ServeHTTP h r env
    let (os, h1) := serveAll (h.after o) rest
    (o :: os, h1)

/-! ## The lifecycle of `main`

After `makeHandler`, `net.ListenTCP` and `time.AfterFunc`, three activities interleave: the
server goroutines running `handler.ServeHTTP`, the timer goroutine running the callback once
24 hours have passed, and the goroutine blocked in `<-handler.Done` that then calls
`server.Shutdown`.  The only shared mutable state is `handler.Done`, which each activity
touches in one atomic channel operation, so a handler call is one step.  `net/http` recovers
a panic of a handler and keeps serving; a panic in the timer goroutine ends the process.
`server.Serve` returns once `server.Shutdown` has been called, and `main` returns with it. -/

/-- `time.Hour` in nanoseconds, the unit of `time.Duration`. -/
def Hour : Nat := 3600 * 1000000000

/-- The duration `time.Hour*24` passed to `time.AfterFunc`. -/
def deadline : Nat := Hour * 24

/-- Whether the process runs, has died of an unrecovered panic, or has left `main`. -/
inductive Proc where
  | running
  | crashed
  | exited
  deriving DecidableEq, Repr

/-- State of the running program. -/
structure Sys where
  /-- The one handler, with the current state of `Done`. -/
  handler : Handler
  /-- Nanoseconds since `time.AfterFunc` was called. -/
  now : Nat
  /-- The timer callback has not run yet. -/
  timerArmed : Bool
  /-- The waiting goroutine is still blocked in `<-handler.Done`. -/
  waiting : Bool
  /-- Number of calls of `server.Shutdown`. -/
  shutdowns : Nat
  proc : Proc
  deriving DecidableEq, Repr

/-- Labels of the step relation. -/
inductive Step where
  /-- A server goroutine runs `ServeHTTP` on a request. -/
  | request (r : Request) (env : Env)
  /-- Time passes. -/
  | tick (d : Nat)
  /-- The timer goroutine runs the callback of `time.AfterFunc`. -/
  | timer
  /-- The receive `<-handler.Done` completes and `server.Shutdown` is called. -/
  | waiter
  /-- The call `server.Serve` returns and `main` ends. -/
  | exit
  deriving DecidableEq, Repr

/-- State in which `server.Serve` starts. -/
def Sys.init (h : Handler) : Sys :=
  { handler := h, now := 0, timerArmed := true, waiting := true, shutdowns := 0,
    proc := .running }

/-- One step; `none` when the step is not enabled. -/
def step (s : Sys) : Step → Option Sys
  | .request r env =>
    if s.proc = .running then
      some { s with handler := s.handler.after (ServeHTTP s.handler r env) }
    else none
  | .tick d =>
    if s.proc = .running then some { s with now := s.now + d } else none
  | .timer =>
    if s.proc = .running ∧ s.timerArmed = true ∧ deadline ≤ s.now then
      let o := timerCallback s.handler.Done
      some { s with handler := s.handler.after o
                    timerArmed := false
                    proc := if o.panic.isSome then .crashed else .running }
    else none
  | .waiter =>
    if s.proc = .running ∧ s.waiting = true ∧ s.handler.Done = .closed then
      some { s with waiting := false, shutdowns := s.shutdowns + 1 }
    else none
  | .exit =>
    if s.proc = .running ∧ 0 < s.shutdowns then some { s with proc := .exited } else none

/-- Run a schedule of steps from a state. -/
def run (s : Sys) : List Step → Option Sys
  | [] => some s
  | t :: ts => (step s t).bind (fun s1 => run s1 ts)

/-- The step is a request that streams the file. -/
def Step.downloads (h : Handler) : Step → Bool
  | .request r env => (ServeHTTP h r env).streamed
  | _ => false

/-- The steps the timer goroutine and the waiting goroutine have not taken yet. -/
def Sys.remaining (s : Sys) : List Step :=
  (if s.timerArmed then [Step.timer] else []) ++ (if s.waiting then [Step.waiter] else [])

/-- What holds in every state of a run that starts from the handler `h`: the fields of the
handler other than `Done` are those of `h`; `server.Shutdown` has been called once if the
waiting goroutine got past its receive and not at all otherwise; the receive completes only
on a closed channel; the timer callback runs only after the deadline and leaves `Done`
closed; and the process exits only after `server.Shutdown` was called. -/
def Inv (h : Handler) (s : Sys) : Prop :=
  s.handler = { h with Done := s.handler.Done } ∧
  (s.waiting = true → s.shutdowns = 0) ∧
  (s.waiting = false → s.shutdowns = 1 ∧ s.handler.Done = .closed) ∧
  (s.timerArmed = false → deadline ≤ s.now ∧ s.handler.Done = .closed) ∧
  (s.proc = .exited → s.waiting = false)

/-- What holds in addition while no download has taken place: `Done` is closed only by the
timer callback, and nothing has panicked outside a handler. -/
def NoDownload (s : Sys) : Prop :=
  (s.handler.Done = .closed → s.timerArmed = false) ∧ s.proc ≠ .crashed

/-! ## A concrete session -/

/-- A four-byte file holding `once`. -/
def exFile : File := { content := [111, 110, 99, 101], modTime := 1700000000 }

/-- Thirty-two bytes standing for the output of `rand.Read`. -/
def exRand : List Nat :=
  [11, 48, 85, 122, 159, 196, 233, 14, 51, 88, 125, 162, 199, 236, 17, 54,
   91, 128, 165, 202, 239, 20, 57, 94, 131, 168, 205, 242, 23, 60, 97, 134]

/-- A start in which every step of `makeHandler` succeeds; the digests are those of the
content of `exFile`. -/
def exStart : StartEnv :=
  StartEnv.good exFile
    [24, 99, 131, 86, 117, 227, 151, 14, 21, 229, 194, 36, 17, 239, 96, 130, 78, 181, 85, 145]
    [32, 6, 81, 168, 178, 213, 145, 47, 105, 45, 184, 148, 104, 167, 212, 125,
     134, 163, 237, 104, 68, 244, 143, 27, 21, 242, 190, 29, 156, 154, 126, 94]
    exRand

/-- The session `makeHandler "/home/user/notes.txt"` returns in `exStart`. -/
def exSession : Handler :=
  { Basename := "notes.txt"
    Filename := "/home/user/notes.txt"
    FileSize := 4
    ModTime := 1700000000
    Sha1Sum := "1863835675e3970e15e5c22411ef60824eb55591"
    Sha256Sum := "200651a8b2d5912f692db89468a7d47d86a3ed6844f48f1b15f2be1d9c9a7e5e"
    EntryURL := "/CzBVep_E6Q4zWH2ix-wRNluApcrvFDleg6jN8hc8YYY"
    DownloadURL := "/CzBVep_E6Q4zWH2ix-wRNluApcrvFDleg6jN8hc8YYY/notes.txt"
    Done := .pending }

/-- Thirty-two bytes that differ from `exRand` in the last bit. -/
def exRand2 : List Nat :=
  [11, 48, 85, 122, 159, 196, 233, 14, 51, 88, 125, 162, 199, 236, 17, 54,
   91, 128, 165, 202, 239, 20, 57, 94, 131, 168, 205, 242, 23, 60, 97, 135]

/-- A request for the download route of `exSession`. -/
def exGet : Request :=
  { Method := "GET", Path := "/CzBVep_E6Q4zWH2ix-wRNluApcrvFDleg6jN8hc8YYY/notes.txt" }

/-- A request for the info route of `exSession`. -/
def exInfo : Request :=
  { Method := "GET", Path := "/CzBVep_E6Q4zWH2ix-wRNluApcrvFDleg6jN8hc8YYY" }

/-- A POST to the download route of `exSession`. -/
def exPost : Request :=
  { Method := "POST", Path := "/CzBVep_E6Q4zWH2ix-wRNluApcrvFDleg6jN8hc8YYY/notes.txt" }

/-- A GET for the info route of `exSession` with a trailing slash. -/
def exSlash : Request :=
  { Method := "GET", Path := "/CzBVep_E6Q4zWH2ix-wRNluApcrvFDleg6jN8hc8YYY/" }

/-- The file opens and is sent in full. -/
def exEnvOk : Env := { file := some exFile, stream := { status := 200, sent := 4 } }

/-- The file opens and the client goes away after one byte. -/
def exEnvAbort : Env := { file := some exFile, stream := { status := 200, sent := 1 } }

/-- The file cannot be opened. -/
def exEnvFail : Env := { file := none, stream := { status := 0, sent := 0 } }

/-- A file of 4096 bytes: more than `net/http` keeps back in the buffer of a response, so
what `http.ServeContent` writes of it has left that buffer when `http.ServeContent`
returns. -/
def exBigFile : File := { content := List.replicate 4096 111, modTime := 1700000000 }

/-- A start on `exBigFile` in which every step of `makeHandler` succeeds; the digests are
those of its content and the random bytes are `exRand2`. -/
def exBigStart : StartEnv :=
  StartEnv.good exBigFile
    [42, 222, 98, 19, 38, 41, 54, 142, 122, 52, 100, 57, 88, 112, 170, 54, 148, 113, 139, 195]
    [163, 98, 251, 108, 92, 32, 88, 164, 94, 255, 55, 77, 54, 254, 202, 80,
     57, 184, 50, 117, 100, 178, 171, 149, 215, 188, 198, 197, 198, 208, 103, 230]
    exRand2

/-- The session `makeHandler "/home/user/video.bin"` returns in `exBigStart`. -/
def exBigSession : Handler :=
  { Basename := "video.bin"
    Filename := "/home/user/video.bin"
    FileSize := 4096
    ModTime := 1700000000
    Sha1Sum := "2ade62132629368e7a3464395870aa3694718bc3"
    Sha256Sum := "a362fb6c5c2058a45eff374d36feca5039b8327564b2ab95d7bcc6c5c6d067e6"
    EntryURL := "/CzBVep_E6Q4zWH2ix-wRNluApcrvFDleg6jN8hc8YYc"
    DownloadURL := "/CzBVep_E6Q4zWH2ix-wRNluApcrvFDleg6jN8hc8YYc/video.bin"
    Done := .pending }

/-- A request for the download route of `exBigSession`. -/
def exBigGet : Request :=
  { Method := "GET", Path := "/CzBVep_E6Q4zWH2ix-wRNluApcrvFDleg6jN8hc8YYc/video.bin" }

/-- The file `exBigFile` opens and all its 4096 bytes are written with status 200. -/
def exBigEnv : Env := { file := some exBigFile, stream := { status := 200, sent := 4096 } }

/-- A run of `main` without a download: an info request, a download request whose open
fails, then the 24 hours pass, the timer callback runs and the waiting goroutine wakes. -/
def exRun : List Step :=
  [.request exInfo exEnvOk, .request exGet exEnvFail, .tick deadline, .timer, .waiter]

/-- The state `exRun` ends in. -/
def exEnd : Sys :=
  { handler := { exSession with Done := .closed }, now := deadline, timerArmed := false,
    waiting := false, shutdowns := 1, proc := .running }

/-! ## The token encoding -/

theorem val3_eq (b0 b1 b2 : Nat) (h1 : b1 < 256) (h2 : b2 < 256) :
    b0 <<< 16 ||| b1 <<< 8 ||| b2 = b0 * 65536 + b1 * 256 + b2 := by
  have e2 : b1 <<< 8 ||| b2 = b1 * 256 + b2 := by
    have := Nat.mul_add_lt_is_or (i := 8) (b := b2) (by omega) b1
    rw [Nat.shiftLeft_eq, Nat.mul_comm b1]; omega
  have e3 : b0 <<< 16 ||| (b1 * 256 + b2) = b0 * 65536 + (b1 * 256 + b2) := by
    have := Nat.mul_add_lt_is_or (i := 16) (b := b1 * 256 + b2) (by omega) b0
    rw [Nat.shiftLeft_eq, Nat.mul_comm b0]; omega
  rw [Nat.or_assoc, e2, e3]; omega

theorem val2_eq (b0 b1 : Nat) (h1 : b1 < 256) :
    b0 <<< 16 ||| b1 <<< 8 = b0 * 65536 + b1 * 256 := by
  have := val3_eq b0 b1 0 h1 (by omega)
  simpa using this

theorem sextet_eq (v k : Nat) : v >>> k &&& 0x3F = v / 2 ^ k % 64 := by
  have := Nat.and_pow_two_sub_one_eq_mod (v >>> k) 6
  rw [Nat.shiftRight_eq_div_pow] at this
  rw [Nat.shiftRight_eq_div_pow]
  simpa using this

theorem low_sextet_eq (v : Nat) : v &&& 0x3F = v % 64 := by
  simpa using Nat.and_pow_two_sub_one_eq_mod v 6

theorem indexOf_encodeAt : ∀ i < 64, encodeURL.data.indexOf (encodeAt i) = i := by
  decide

theorem encodeAt_inj {i j : Nat} (hi : i < 64) (hj : j < 64) (h : encodeAt i = encodeAt j) :
    i = j := by
  rw [← indexOf_encodeAt i hi, ← indexOf_encodeAt j hj, h]

theorem group3_inj {a0 a1 a2 b0 b1 b2 : Nat}
    (ha0 : a0 < 256) (ha1 : a1 < 256) (ha2 : a2 < 256)
    (hb0 : b0 < 256) (hb1 : b1 < 256) (hb2 : b2 < 256)
    (e0 : encodeAt ((a0 <<< 16 ||| a1 <<< 8 ||| a2) >>> 18 &&& 0x3F)
        = encodeAt ((b0 <<< 16 ||| b1 <<< 8 ||| b2) >>> 18 &&& 0x3F))
    (e1 : encodeAt ((a0 <<< 16 ||| a1 <<< 8 ||| a2) >>> 12 &&& 0x3F)
        = encodeAt ((b0 <<< 16 ||| b1 <<< 8 ||| b2) >>> 12 &&& 0x3F))
    (e2 : encodeAt ((a0 <<< 16 ||| a1 <<< 8 ||| a2) >>> 6 &&& 0x3F)
        = encodeAt ((b0 <<< 16 ||| b1 <<< 8 ||| b2) >>> 6 &&& 0x3F))
    (e3 : encodeAt ((a0 <<< 16 ||| a1 <<< 8 ||| a2) &&& 0x3F)
        = encodeAt ((b0 <<< 16 ||| b1 <<< 8 ||| b2) &&& 0x3F)) :
    a0 = b0 ∧ a1 = b1 ∧ a2 = b2 := by
  rw [val3_eq a0 a1 a2 ha1 ha2, val3_eq b0 b1 b2 hb1 hb2] at e0 e1 e2 e3
  rw [sextet_eq, sextet_eq] at e0 e1 e2
  rw [low_sextet_eq, low_sextet_eq] at e3
  have f0 := encodeAt_inj (Nat.mod_lt _ (by decide)) (Nat.mod_lt _ (by decide)) e0
  have f1 := encodeAt_inj (Nat.mod_lt _ (by decide)) (Nat.mod_lt _ (by decide)) e1
  have f2 := encodeAt_inj (Nat.mod_lt _ (by decide)) (Nat.mod_lt _ (by decide)) e2
  have f3 := encodeAt_inj (Nat.mod_lt _ (by decide)) (Nat.mod_lt _ (by decide)) e3
  norm_num at f0 f1 f2
  omega

theorem group2_inj {a0 a1 b0 b1 : Nat}
    (ha0 : a0 < 256) (ha1 : a1 < 256) (hb0 : b0 < 256) (hb1 : b1 < 256)
    (e0 : encodeAt ((a0 <<< 16 ||| a1 <<< 8) >>> 18 &&& 0x3F)
        = encodeAt ((b0 <<< 16 ||| b1 <<< 8) >>> 18 &&& 0x3F))
    (e1 : encodeAt ((a0 <<< 16 ||| a1 <<< 8) >>> 12 &&& 0x3F)
        = encodeAt ((b0 <<< 16 ||| b1 <<< 8) >>> 12 &&& 0x3F))
    (e2 : encodeAt ((a0 <<< 16 ||| a1 <<< 8) >>> 6 &&& 0x3F)
        = encodeAt ((b0 <<< 16 ||| b1 <<< 8) >>> 6 &&& 0x3F)) :
    a0 = b0 ∧ a1 = b1 := by
  rw [val2_eq a0 a1 ha1, val2_eq b0 b1 hb1] at e0 e1 e2
  rw [sextet_eq, sextet_eq] at e0 e1 e2
  have f0 := encodeAt_inj (Nat.mod_lt _ (by decide)) (Nat.mod_lt _ (by decide)) e0
  have f1 := encodeAt_inj (Nat.mod_lt _ (by decide)) (Nat.mod_lt _ (by decide)) e1
  have f2 := encodeAt_inj (Nat.mod_lt _ (by decide)) (Nat.mod_lt _ (by decide)) e2
  norm_num at f0 f1 f2
  omega

theorem group1_inj {a0 b0 : Nat} (ha0 : a0 < 256) (hb0 : b0 < 256)
    (e0 : encodeAt ((a0 <<< 16) >>> 18 &&& 0x3F) = encodeAt ((b0 <<< 16) >>> 18 &&& 0x3F))
    (e1 : encodeAt ((a0 <<< 16) >>> 12 &&& 0x3F) = encodeAt ((b0 <<< 16) >>> 12 &&& 0x3F)) :
    a0 = b0 := by
  rw [Nat.shiftLeft_eq, Nat.shiftLeft_eq] at e0 e1
  rw [sextet_eq, sextet_eq] at e0 e1
  have f0 := encodeAt_inj (Nat.mod_lt _ (by decide)) (Nat.mod_lt _ (by decide)) e0
  have f1 := encodeAt_inj (Nat.mod_lt _ (by decide)) (Nat.mod_lt _ (by decide)) e1
  norm_num at f0 f1
  omega


theorem Encode_inj (a : List Nat) : ∀ b : List Nat, a.length = b.length →
    (∀ x ∈ a, x < 256) → (∀ x ∈ b, x < 256) → Encode a = Encode b → a = b := by
  induction a using Encode.induct with
  | case1 a0 a1 a2 rest ih =>
    intro b hl ha hb he
    rcases b with _ | ⟨b0, _ | ⟨b1, _ | ⟨b2, rb⟩⟩⟩ <;> simp at hl
    simp only [Encode, List.cons.injEq] at he
    obtain ⟨e0, e1, e2, e3, er⟩ := he
    simp only [List.mem_cons, forall_eq_or_imp] at ha hb
    obtain ⟨ha0, ha1, ha2, har⟩ := ha
    obtain ⟨hb0, hb1, hb2, hbr⟩ := hb
    obtain ⟨f0, f1, f2⟩ := group3_inj ha0 ha1 ha2 hb0 hb1 hb2 e0 e1 e2 e3
    rw [f0, f1, f2, ih rb hl har hbr er]
  | case2 a0 a1 =>
    intro b hl ha hb he
    rcases b with _ | ⟨b0, _ | ⟨b1, _ | ⟨b2, rb⟩⟩⟩ <;> simp at hl
    simp only [Encode, List.cons.injEq, and_true] at he
    obtain ⟨e0, e1, e2⟩ := he
    simp only [List.mem_cons, forall_eq_or_imp] at ha hb
    obtain ⟨f0, f1⟩ := group2_inj ha.1 ha.2.1 hb.1 hb.2.1 e0 e1 e2
    rw [f0, f1]
  | case3 a0 =>
    intro b hl ha hb he
    rcases b with _ | ⟨b0, _ | ⟨b1, rb⟩⟩ <;> simp at hl
    simp only [Encode, List.cons.injEq, and_true] at he
    simp only [List.mem_cons, forall_eq_or_imp] at ha hb
    rw [group1_inj ha.1 hb.1 he.1 he.2]
  | case4 =>
    intro b hl _ _ _
    rcases b with _ | ⟨b0, rb⟩
    · rfl
    · simp at hl

theorem Encode_length (a : List Nat) : (Encode a).length = (a.length * 8 + 5) / 6 := by
  induction a using Encode.induct with
  | case1 a0 a1 a2 rest ih => simp only [Encode, List.length_cons, ih]; omega
  | case2 a0 a1 => simp [Encode]
  | case3 a0 => simp [Encode]
  | case4 => simp [Encode]

theorem encodeAt_mem (i : Nat) : encodeAt i ∈ encodeURL.data := by
  by_cases hi : i < 64
  · revert i; decide
  · have : encodeURL.data.length ≤ i := by
      have : encodeURL.data.length = 64 := by decide
      omega
    unfold encodeAt
    rw [List.getD_eq_default _ _ this]
    decide

theorem Encode_mem (a : List Nat) : ∀ c ∈ Encode a, c ∈ encodeURL.data := by
  induction a using Encode.induct with
  | case1 a0 a1 a2 rest ih =>
    intro c hc
    simp only [Encode, List.mem_cons] at hc
    rcases hc with h | h | h | h | h
    · rw [h]; exact encodeAt_mem _
    · rw [h]; exact encodeAt_mem _
    · rw [h]; exact encodeAt_mem _
    · rw [h]; exact encodeAt_mem _
    · exact ih c h
  | case2 a0 a1 =>
    intro c hc
    simp only [Encode, List.mem_cons, List.not_mem_nil, or_false] at hc
    rcases hc with h | h | h <;> rw [h] <;> exact encodeAt_mem _
  | case3 a0 =>
    intro c hc
    simp only [Encode, List.mem_cons, List.not_mem_nil, or_false] at hc
    rcases hc with h | h <;> rw [h] <;> exact encodeAt_mem _
  | case4 => intro c hc; simp [Encode] at hc


theorem urlSafe_of_mem : ∀ c ∈ encodeURL.data, urlSafe c = true := by
  decide

/-! ## Facts about the handler -/

theorem HandleDownload_fail (h : Handler) (r : Request) (env : Env) (hf : env.file = none) :
    HandleDownload h r env =
      { events := [.osOpen h.Filename false, .httpError "Oops Open" 500],
        Done := h.Done, panic := none } := by
  simp [HandleDownload, hf, StatusInternalServerError]

theorem HandleDownload_pending (h : Handler) (r : Request) (env : Env) (file : File)
    (hf : env.file = some file) (hd : h.Done = .pending) :
    (HandleDownload h r env).Done = .closed ∧ (HandleDownload h r env).panic = none := by
  unfold HandleDownload
  rw [hf, hd]
  simp [closeChan]

theorem HandleDownload_closed (h : Handler) (r : Request) (env : Env) (file : File)
    (hf : env.file = some file) (hd : h.Done = .closed) :
    (HandleDownload h r env).Done = .closed ∧
      (HandleDownload h r env).panic = some "close of closed channel" := by
  unfold HandleDownload
  rw [hf, hd]
  simp [closeChan]

theorem timerCallback_pending : timerCallback .pending =
    { events := [.logPrintln "Shutting down automatically after configured timeout"],
      Done := .closed, panic := none } := rfl

theorem timerCallback_closed : timerCallback .closed =
    { events := [.logPrintln "Shutting down automatically after configured timeout"],
      Done := .closed, panic := some "close of closed channel" } := rfl

theorem ServeHTTP_download (h : Handler) (r : Request) (env : Env)
    (hm : r.Method = MethodGet) (hne : h.DownloadURL ≠ h.EntryURL)
    (hp : r.Path = h.DownloadURL) : ServeHTTP h r env = HandleDownload h r env := by
  unfold ServeHTTP
  rw [if_neg (by simp [hm]), if_neg (by rw [hp]; exact hne), if_pos hp]

theorem ServeHTTP_events_after (h : Handler) (d : Chan) (r : Request) (env : Env) :
    (ServeHTTP { h with Done := d } r env).events = (ServeHTTP h r env).events := by
  unfold ServeHTTP HandleDownload Handler.page
  split_ifs <;> try rfl
  cases env.file with
  | none => rfl
  | some file => cases d <;> cases h.Done <;> rfl

theorem ServeHTTP_Done_closed (h : Handler) (r : Request) (env : Env)
    (hd : h.Done = .closed) : (ServeHTTP h r env).Done = .closed := by
  unfold ServeHTTP HandleDownload
  split_ifs <;> try exact hd
  cases env.file with
  | none => exact hd
  | some file => rw [hd]; rfl

/-! ## Facts about session construction -/

theorem slash_append_ne (e b : String) : e ++ "/" ++ b ≠ e := by
  intro h
  have := congrArg String.length h
  simp only [String.length_append] at this
  have h1 : "/".length = 1 := rfl
  omega

theorem Base_ne_empty (path : String) : Base path ≠ "" := by
  unfold Base
  by_cases h1 : path = ""
  · rw [if_pos h1]; decide
  · rw [if_neg h1]
    dsimp only
    split
    · decide
    · rename_i h2
      intro h
      exact h2 (congrArg String.data h)

theorem makeHandler_good (filename : String) (file : File) (sha1 sha256 rb : List Nat) :
    makeHandler filename (StartEnv.good file sha1 sha256 rb) =
      .ok { Filename := filename
            Done := .pending
            ModTime := file.modTime
            FileSize := file.content.length
            Sha1Sum := sprintfHex sha1
            Sha256Sum := sprintfHex sha256
            Basename := Base filename
            EntryURL := "/" ++ EncodeToString rb
            DownloadURL := "/" ++ EncodeToString rb ++ "/" ++ Base filename } := rfl

theorem makeHandler_ok {filename : String} {env : StartEnv} {h : Handler}
    (hmk : makeHandler filename env = .ok h) :
    ∃ rb, env.rand = some rb ∧ h.EntryURL = "/" ++ EncodeToString rb ∧
      h.Basename = Base filename ∧ h.DownloadURL = h.EntryURL ++ "/" ++ h.Basename ∧
      h.Done = .pending ∧ h.Filename = filename := by
  unfold makeHandler at hmk
  split at hmk
  · cases hmk
  · split_ifs at hmk
    split at hmk
    · cases hmk
    · rename_i rb hrb
      injection hmk with hmk
      subst hmk
      exact ⟨rb, hrb, rfl, rfl, rfl, rfl, rfl⟩

theorem makeHandler_routes_ne {filename : String} {env : StartEnv} {h : Handler}
    (hmk : makeHandler filename env = .ok h) : h.DownloadURL ≠ h.EntryURL := by
  obtain ⟨rb, -, -, -, hd, -, -⟩ := makeHandler_ok hmk
  rw [hd]
  exact slash_append_ne _ _

theorem fireAll_closed (h : Handler) (hd : h.Done = .closed) (ts : List Trigger) :
    (fireAll h ts).length = ts.length ∧
      ∀ o ∈ fireAll h ts, o.panic = some "close of closed channel" ∧ o.Done = .closed := by
  induction ts generalizing h with
  | nil => simp [fireAll]
  | cons t ts ih =>
    have ht : (t.fire h).panic = some "close of closed channel" ∧ (t.fire h).Done = .closed := by
      cases t with
      | download r file res =>
        have := HandleDownload_closed h r { file := some file, stream := res } file rfl hd
        exact ⟨this.2, this.1⟩
      | timer =>
        simp only [Trigger.fire, hd, timerCallback_closed, and_self]
    have ih1 := ih (h.after (t.fire h)) ht.2
    simp only [fireAll, List.length_cons, List.mem_cons, forall_eq_or_imp]
    exact ⟨by rw [ih1.1], ht, ih1.2⟩

theorem fire_pending (h : Handler) (hd : h.Done = .pending) (t : Trigger) :
    (t.fire h).panic = none ∧ (t.fire h).Done = .closed := by
  cases t with
  | download r file res =>
    have := HandleDownload_pending h r { file := some file, stream := res } file rfl hd
    exact ⟨this.2, this.1⟩
  | timer => simp only [Trigger.fire, hd, timerCallback_pending, and_self]

/-! ## The claims -/

/-- C1, counterexample: on the session `makeHandler` builds in `exStart`, a second
`HandleDownload` that finishes its stream, and likewise the timer callback after a finished
download, does not return normally: it panics with `close of closed channel`. -/
theorem second_trigger_panics :
    makeHandler "/home/user/notes.txt" exStart = .ok exSession ∧
    (fireAll exSession [.download exGet exFile ⟨200, 4⟩, .download exGet exFile ⟨200, 4⟩]).map
        (fun o => o.panic) = [none, some "close of closed channel"] ∧
    (fireAll exSession [.download exGet exFile ⟨200, 4⟩, .timer]).map
        (fun o => o.panic) = [none, some "close of closed channel"] ∧
    (fireAll exSession [.timer, .download exGet exFile ⟨200, 4⟩]).map
        (fun o => o.panic) = [none, some "close of closed channel"] := by
  refine ⟨rfl, ?_, ?_, ?_⟩ <;> decide

/-- C1, amended: the signal is fired by a bare `close(h.Done)`.  On a handler whose signal is
pending, the first trigger of any sequence (a download that finished its stream, or the timer
callback) returns normally and fires the signal; every later trigger panics with
`close of closed channel` instead of being a no-op, and the signal stays fired. -/
theorem only_first_trigger_returns (h : Handler) (hd : h.Done = .pending) (t : Trigger)
    (ts : List Trigger) :
    ∃ o os, fireAll h (t :: ts) = o :: os ∧ o.panic = none ∧ o.Done = .closed ∧
      os.length = ts.length ∧
      ∀ o1 ∈ os, o1.panic = some "close of closed channel" ∧ o1.Done = .closed := by
  have h1 := fire_pending h hd t
  have h2 := fireAll_closed (h.after (t.fire h)) h1.2 ts
  exact ⟨t.fire h, fireAll (h.after (t.fire h)) ts, rfl, h1.1, h1.2, h2.1, h2.2⟩

/-- Witness of `only_first_trigger_returns`: a download, then the timer, then a download. -/
theorem only_first_trigger_returns_witness :
    exSession.Done = .pending ∧
    ∃ o os, fireAll exSession
        [.download exGet exFile ⟨200, 4⟩, .timer, .download exGet exFile ⟨206, 2⟩] = o :: os ∧
      o.panic = none ∧ o.Done = .closed ∧ os.length = 2 ∧
      ∀ o1 ∈ os, o1.panic = some "close of closed channel" ∧ o1.Done = .closed :=
  ⟨rfl, only_first_trigger_returns exSession rfl (.download exGet exFile ⟨200, 4⟩)
    [.timer, .download exGet exFile ⟨206, 2⟩]⟩


/-- C2: in a session built by `makeHandler`, whatever the state `d` of `Done`, a GET for
`DownloadURL` whose open fails makes exactly the calls `os.Open` and
`http.Error(w, "Oops Open", 500)`: the status is 500, nothing is streamed, the handler
returns normally and `Done` is left as it was.  When `Done` was pending, a following GET for
`DownloadURL` whose open succeeds is served through `http.ServeContent` and fires the
signal. -/
theorem failed_open_keeps_slot (filename : String) (start : StartEnv) (h : Handler)
    (hmk : makeHandler filename start = .ok h) (d : Chan) (r1 r2 : Request) (e1 e2 : Env)
    (file : File)
    (hm1 : r1.Method = MethodGet) (hp1 : r1.Path = h.DownloadURL) (hf1 : e1.file = none)
    (hm2 : r2.Method = MethodGet) (hp2 : r2.Path = h.DownloadURL)
    (hf2 : e2.file = some file) :
    ServeHTTP { h with Done := d } r1 e1 =
        { events := [.osOpen filename false, .httpError "Oops Open" 500],
          Done := d, panic := none } ∧
      statusOf (ServeHTTP { h with Done := d } r1 e1).events = some 500 ∧
      (ServeHTTP { h with Done := d } r1 e1).streamed = false ∧
      (d = .pending →
        ServeHTTP (({ h with Done := d } : Handler).after
            (ServeHTTP { h with Done := d } r1 e1)) r2 e2 =
          { events := [.osOpen filename true,
                       .headerSet "Content-Type" "application/octet-stream",
                       .serveContent r2 h.Basename h.ModTime file e2.stream,
                       .fileClose file],
            Done := .closed, panic := none }) := by
  have hne := makeHandler_routes_ne hmk
  obtain ⟨rb, -, -, -, -, -, hfn⟩ := makeHandler_ok hmk
  have e : ServeHTTP { h with Done := d } r1 e1 =
      { events := [.osOpen filename false, .httpError "Oops Open" 500],
        Done := d, panic := none } := by
    rw [ServeHTTP_download { h with Done := d } r1 e1 hm1 hne hp1,
      HandleDownload_fail { h with Done := d } r1 e1 hf1]
    simp only [hfn]
  refine ⟨e, ?_, ?_, ?_⟩
  · rw [e]; rfl
  · rw [e]; rfl
  · intro hd
    subst hd
    rw [e]
    have hs := ServeHTTP_download
      (({ h with Done := .pending } : Handler).after
        { events := [.osOpen filename false, .httpError "Oops Open" 500],
          Done := .pending, panic := none }) r2 e2 hm2 hne hp2
    rw [hs]
    unfold HandleDownload
    simp only [hf2, Handler.after, closeChan, hfn, List.cons_append, List.nil_append]

/-- Witness of `failed_open_keeps_slot`: the fresh session `exSession`, a failed open and
then a successful one. -/
theorem failed_open_keeps_slot_witness :
    makeHandler "/home/user/notes.txt" exStart = .ok exSession ∧
    ServeHTTP exSession exGet exEnvFail =
        { events := [.osOpen "/home/user/notes.txt" false, .httpError "Oops Open" 500],
          Done := .pending, panic := none } ∧
    (ServeHTTP (exSession.after (ServeHTTP exSession exGet exEnvFail)) exGet exEnvOk).Done
      = .closed :=
  have w := failed_open_keeps_slot "/home/user/notes.txt" exStart exSession rfl .pending
    exGet exGet exEnvFail exEnvOk exFile rfl rfl rfl rfl rfl rfl
  ⟨rfl, w.1, congrArg Outcome.Done (w.2.2.2 rfl)⟩

/-- C3: in a session built by `makeHandler` whose signal is pending, a GET for `DownloadURL`
whose open succeeds makes exactly the calls `os.Open`,
`w.Header().Set("Content-Type", "application/octet-stream")`,
`http.ServeContent(w, r, h.Basename, h.ModTime, file)` and the deferred `file.Close()`, in
this order, then closes `Done` once: the signal is fired and the handler returns without
panic, whatever `http.ServeContent` did (`env.stream` is arbitrary). -/
theorem download_streams_then_fires (filename : String) (start : StartEnv) (h : Handler)
    (hmk : makeHandler filename start = .ok h) (r : Request) (env : Env) (file : File)
    (hm : r.Method = MethodGet) (hp : r.Path = h.DownloadURL) (hf : env.file = some file) :
    h.DownloadURL = h.EntryURL ++ "/" ++ h.Basename ∧ h.DownloadURL ≠ h.EntryURL ∧
      h.Done = .pending ∧
      ServeHTTP h r env =
        { events := [.osOpen filename true,
                     .headerSet "Content-Type" "application/octet-stream",
                     .serveContent r h.Basename h.ModTime file env.stream,
                     .fileClose file],
          Done := .closed, panic := none } := by
  have hne := makeHandler_routes_ne hmk
  obtain ⟨rb, -, -, -, hurl, hd, hfn⟩ := makeHandler_ok hmk
  refine ⟨hurl, hne, hd, ?_⟩
  rw [ServeHTTP_download h r env hm hne hp]
  unfold HandleDownload
  simp only [hf, hd, closeChan, hfn, List.cons_append, List.nil_append]

/-- Witness of `download_streams_then_fires`: a download of `exSession` that the client
aborts after one byte. -/
theorem download_streams_then_fires_witness :
    makeHandler "/home/user/notes.txt" exStart = .ok exSession ∧
    (ServeHTTP exSession exGet exEnvAbort).events =
        [.osOpen "/home/user/notes.txt" true,
         .headerSet "Content-Type" "application/octet-stream",
         .serveContent exGet "notes.txt" 1700000000 exFile ⟨200, 1⟩,
         .fileClose exFile] ∧
    (ServeHTTP exSession exGet exEnvAbort).Done = .closed ∧
    (ServeHTTP exSession exGet exEnvAbort).panic = none :=
  have w := (download_streams_then_fires "/home/user/notes.txt" exStart exSession rfl
    exGet exEnvAbort exFile rfl rfl rfl).2.2.2
  ⟨rfl, congrArg Outcome.events w, congrArg Outcome.Done w, congrArg Outcome.panic w⟩

theorem makeHandler_exBigStart :
    makeHandler "/home/user/video.bin" exBigStart = .ok exBigSession := by
  have hlen : exBigFile.content.length = 4096 := List.length_replicate 4096 111
  rw [exBigStart, makeHandler_good, hlen]
  rfl

/-- C4, counterexample: `exBigSession` serves a file of 4096 bytes.  After a first download
has fired its signal, a second GET for `DownloadURL` whose open succeeds still makes the
calls of a download: `http.ServeContent` is called on the file and writes all 4096 bytes
with status 200, before `close(h.Done)` panics. -/
theorem download_after_fired_streams :
    makeHandler "/home/user/video.bin" exBigStart = .ok exBigSession ∧
    exBigFile.content.length = 4096 ∧
    (ServeHTTP exBigSession exBigGet exBigEnv).Done = .closed ∧
    (ServeHTTP (exBigSession.after (ServeHTTP exBigSession exBigGet exBigEnv))
        exBigGet exBigEnv).streamed = true ∧
    ServeHTTP (exBigSession.after (ServeHTTP exBigSession exBigGet exBigEnv))
        exBigGet exBigEnv =
      { events := [.osOpen "/home/user/video.bin" true,
                   .headerSet "Content-Type" "application/octet-stream",
                   .serveContent exBigGet "video.bin" 1700000000 exBigFile ⟨200, 4096⟩,
                   .fileClose exBigFile],
        Done := .closed, panic := some "close of closed channel" } := by
  exact ⟨makeHandler_exBigStart, List.length_replicate 4096 111, rfl, rfl, rfl⟩

/-- C4, amended: `ServeHTTP` never reads `Done`.  In a session built by `makeHandler` the
calls made for a request are the same whether the signal is pending or fired; in particular
a GET for `DownloadURL` whose open succeeds after the signal has fired still opens the file,
sets `Content-Type` and calls `http.ServeContent` on it.  Only the end differs:
`close(h.Done)` then panics, so the handler does not return normally, and the signal stays
fired. -/
theorem fired_signal_does_not_gate (filename : String) (start : StartEnv) (h : Handler)
    (hmk : makeHandler filename start = .ok h) (r : Request) (env : Env) (file : File)
    (hm : r.Method = MethodGet) (hp : r.Path = h.DownloadURL) (hf : env.file = some file) :
    (∀ (r1 : Request) (e1 : Env),
        (ServeHTTP { h with Done := .closed } r1 e1).events =
          (ServeHTTP { h with Done := .pending } r1 e1).events) ∧
      ServeHTTP { h with Done := .closed } r env =
        { events := [.osOpen filename true,
                     .headerSet "Content-Type" "application/octet-stream",
                     .serveContent r h.Basename h.ModTime file env.stream,
                     .fileClose file],
          Done := .closed, panic := some "close of closed channel" } ∧
      (ServeHTTP { h with Done := .closed } r env).streamed = true := by
  have hne := makeHandler_routes_ne hmk
  obtain ⟨rb, -, -, -, -, -, hfn⟩ := makeHandler_ok hmk
  have e : ServeHTTP { h with Done := .closed } r env =
      { events := [.osOpen filename true,
                   .headerSet "Content-Type" "application/octet-stream",
                   .serveContent r h.Basename h.ModTime file env.stream,
                   .fileClose file],
        Done := .closed, panic := some "close of closed channel" } := by
    rw [ServeHTTP_download { h with Done := .closed } r env hm hne hp]
    unfold HandleDownload
    simp only [hf, closeChan, hfn, List.cons_append, List.nil_append]
  refine ⟨?_, e, ?_⟩
  · intro r1 e1
    rw [ServeHTTP_events_after h .closed, ServeHTTP_events_after h .pending]
  · rw [e]; rfl

/-- Witness of `fired_signal_does_not_gate`: `exBigSession` after its signal has fired. -/
theorem fired_signal_does_not_gate_witness :
    makeHandler "/home/user/video.bin" exBigStart = .ok exBigSession ∧
    exBigGet.Method = MethodGet ∧ exBigGet.Path = exBigSession.DownloadURL ∧
    exBigEnv.file = some exBigFile ∧
    (∀ (r1 : Request) (e1 : Env),
        (ServeHTTP { exBigSession with Done := .closed } r1 e1).events =
          (ServeHTTP { exBigSession with Done := .pending } r1 e1).events) ∧
    ServeHTTP { exBigSession with Done := .closed } exBigGet exBigEnv =
        { events := [.osOpen "/home/user/video.bin" true,
                     .headerSet "Content-Type" "application/octet-stream",
                     .serveContent exBigGet exBigSession.Basename exBigSession.ModTime
                       exBigFile exBigEnv.stream,
                     .fileClose exBigFile],
          Done := .closed, panic := some "close of closed channel" } ∧
    (ServeHTTP { exBigSession with Done := .closed } exBigGet exBigEnv).streamed = true :=
  ⟨makeHandler_exBigStart, rfl, rfl, rfl,
    fired_signal_does_not_gate "/home/user/video.bin" exBigStart exBigSession
      makeHandler_exBigStart exBigGet exBigEnv exBigFile rfl rfl rfl⟩

/-- C5: for every handler, every request whose method is not GET and every path, `ServeHTTP`
makes the single call `http.Error(w, "Bad Request", 400)`: the status is 400, `os.Open` and
`http.ServeContent` are not called, `Done` is unchanged and the handler returns normally.
The path is not looked at. -/
theorem non_get_is_bad_request (h : Handler) (r : Request) (env : Env)
    (hm : r.Method ≠ MethodGet) :
    ServeHTTP h r env =
        { events := [.httpError "Bad Request" 400], Done := h.Done, panic := none } ∧
      statusOf (ServeHTTP h r env).events = some 400 ∧
      (ServeHTTP h r env).opened = false ∧
      (ServeHTTP h r env).streamed = false := by
  have e : ServeHTTP h r env =
      { events := [.httpError "Bad Request" 400], Done := h.Done, panic := none } := by
    unfold ServeHTTP
    rw [if_pos hm]
    rfl
  rw [e]
  exact ⟨rfl, rfl, rfl, rfl⟩

/-- Witness of `non_get_is_bad_request`: a POST to the download route of `exSession`. -/
theorem non_get_is_bad_request_witness :
    exPost.Method ≠ MethodGet ∧ exPost.Path = exSession.DownloadURL ∧
    ServeHTTP exSession exPost exEnvOk =
        { events := [.httpError "Bad Request" 400], Done := .pending, panic := none } ∧
    statusOf (ServeHTTP exSession exPost exEnvOk).events = some 400 ∧
    (ServeHTTP exSession exPost exEnvOk).opened = false ∧
    (ServeHTTP exSession exPost exEnvOk).streamed = false :=
  ⟨by decide, rfl, non_get_is_bad_request exSession exPost exEnvOk (by decide)⟩

/-- C6: for every handler and every GET whose path is neither `EntryURL` nor `DownloadURL`
as a string, `ServeHTTP` makes the single call `http.Error(w, "Not Found", 404)`: the status
is 404, nothing is opened or streamed, `Done` is unchanged and the handler returns
normally. -/
theorem unknown_path_is_not_found (h : Handler) (r : Request) (env : Env)
    (hm : r.Method = MethodGet) (h1 : r.Path ≠ h.EntryURL) (h2 : r.Path ≠ h.DownloadURL) :
    ServeHTTP h r env =
        { events := [.httpError "Not Found" 404], Done := h.Done, panic := none } ∧
      statusOf (ServeHTTP h r env).events = some 404 ∧
      (ServeHTTP h r env).opened = false ∧
      (ServeHTTP h r env).streamed = false := by
  have e : ServeHTTP h r env =
      { events := [.httpError "Not Found" 404], Done := h.Done, panic := none } := by
    unfold ServeHTTP
    rw [if_neg (by simp [hm]), if_neg h1, if_neg h2]
    rfl
  rw [e]
  exact ⟨rfl, rfl, rfl, rfl⟩

/-- Witness of `unknown_path_is_not_found`: the info route of `exSession` with a trailing
slash, which is also a proper initial part of the download route. -/
theorem unknown_path_is_not_found_witness :
    exSlash.Method = MethodGet ∧ exSlash.Path = exSession.EntryURL ++ "/" ∧
    exSlash.Path ≠ exSession.EntryURL ∧ exSlash.Path ≠ exSession.DownloadURL ∧
    ServeHTTP exSession exSlash exEnvOk =
        { events := [.httpError "Not Found" 404], Done := .pending, panic := none } ∧
    statusOf (ServeHTTP exSession exSlash exEnvOk).events = some 404 ∧
    (ServeHTTP exSession exSlash exEnvOk).opened = false ∧
    (ServeHTTP exSession exSlash exEnvOk).streamed = false :=
  ⟨rfl, by decide, by decide, by decide,
    unknown_path_is_not_found exSession exSlash exEnvOk rfl (by decide) (by decide)⟩

theorem ServeHTTP_info (h : Handler) (r : Request) (env : Env)
    (hm : r.Method = MethodGet) (hp : r.Path = h.EntryURL) :
    ServeHTTP h r env =
      { events := [.templateExecute h.page], Done := h.Done, panic := none } := by
  unfold ServeHTTP
  rw [if_neg (by simp [hm]), if_pos hp]

/-- C7: for every handler in every state of `Done`, a GET for `EntryURL` makes the single
call `HTMLTemplate.Execute(w, h)` on the metadata of the handler, returns normally and
leaves `Done` as it was; and any sequence of such requests leaves the handler as it was,
each of them being answered with the page. -/
theorem info_page_never_consumes (h : Handler) (reqs : List (Request × Env))
    (hall : ∀ q ∈ reqs, q.1.Method = MethodGet ∧ q.1.Path = h.EntryURL) :
    serveAll h reqs =
      (reqs.map (fun _ =>
        ({ events := [.templateExecute h.page], Done := h.Done, panic := none } : Outcome)),
       h) := by
  induction reqs with
  | nil => rfl
  | cons q rest ih =>
    obtain ⟨r, env⟩ := q
    have hq := hall (r, env) (List.mem_cons_self _ _)
    have e := ServeHTTP_info h r env hq.1 hq.2
    have hafter : h.after (ServeHTTP h r env) = h := by rw [e]; rfl
    have ih1 := ih (fun q hq1 => hall q (List.mem_cons_of_mem _ hq1))
    rw [e] at hafter
    simp only [serveAll, e, hafter, ih1, List.map_cons]

/-- Witness of `info_page_never_consumes`: three info requests on `exSession` after its
signal has fired. -/
theorem info_page_never_consumes_witness :
    (∀ q ∈ [(exInfo, exEnvOk), (exInfo, exEnvFail), (exInfo, exEnvOk)],
      q.1.Method = MethodGet ∧ q.1.Path = ({ exSession with Done := .closed } : Handler).EntryURL) ∧
    serveAll { exSession with Done := .closed }
        [(exInfo, exEnvOk), (exInfo, exEnvFail), (exInfo, exEnvOk)] =
      ([(exInfo, exEnvOk), (exInfo, exEnvFail), (exInfo, exEnvOk)].map (fun _ =>
        ({ events := [.templateExecute exSession.page], Done := .closed, panic := none }
          : Outcome)),
       { exSession with Done := .closed }) :=
  ⟨by decide, info_page_never_consumes { exSession with Done := .closed }
    [(exInfo, exEnvOk), (exInfo, exEnvFail), (exInfo, exEnvOk)] (by decide)⟩

theorem Base_separator (path : String) (hs : '/' ∈ (Base path).data) : Base path = "/" := by
  unfold Base at hs ⊢
  by_cases h1 : path = ""
  · rw [if_pos h1] at hs
    exact absurd hs (by decide)
  · rw [if_neg h1] at hs ⊢
    dsimp only at hs ⊢
    split
    · rfl
    · rename_i h2
      rw [if_neg h2] at hs
      have hm := List.mem_takeWhile_imp (List.mem_reverse.mp hs)
      exact absurd hm (by decide)

/-- C8: whenever the open, `Stat`, the hashing copy and `rand.Read` succeed, `makeHandler`
returns a handler with `EntryURL = "/" + token`, the token being the unpadded URL-safe
base64 encoding of the random bytes, `Basename = filepath.Base(filename)` (never empty, and
free of separators unless it is `"/"`), and `DownloadURL = EntryURL + "/" + Basename`.  So
`DownloadURL` is `EntryURL` followed by a non-empty string, it is strictly longer, and the
two routes differ. -/
theorem makeHandler_routes (filename : String) (start : StartEnv) (file : File)
    (rb : List Nat) (hfile : start.file = some file) (hstat : start.statOk = true)
    (hcopy : start.copyOk = true) (hrand : start.rand = some rb) :
    ∃ h, makeHandler filename start = .ok h ∧
      h.EntryURL = "/" ++ EncodeToString rb ∧
      h.Basename = Base filename ∧ h.Basename ≠ "" ∧
      ('/' ∈ h.Basename.data → h.Basename = "/") ∧
      h.DownloadURL = h.EntryURL ++ "/" ++ h.Basename ∧
      (∃ t, t ≠ "" ∧ h.DownloadURL = h.EntryURL ++ t) ∧
      h.EntryURL.length < h.DownloadURL.length ∧
      h.DownloadURL ≠ h.EntryURL := by
  have hstart : start = StartEnv.good file start.sha1 start.sha256 rb := by
    cases start
    simp only [StartEnv.good] at *
    simp [hfile, hstat, hcopy, hrand]
  refine ⟨_, by rw [hstart]; exact makeHandler_good filename file _ _ rb, rfl, rfl,
    Base_ne_empty filename, Base_separator filename, rfl, ?_, ?_, slash_append_ne _ _⟩
  · refine ⟨"/" ++ Base filename, ?_, ?_⟩
    · intro h
      have := congrArg String.length h
      simp only [String.length_append] at this
      have h1 : "/".length = 1 := rfl
      have h0 : "".length = 0 := rfl
      omega
    · show "/" ++ EncodeToString rb ++ "/" ++ Base filename
        = "/" ++ EncodeToString rb ++ ("/" ++ Base filename)
      rw [String.append_assoc]
  · show ("/" ++ EncodeToString rb).length
      < ("/" ++ EncodeToString rb ++ "/" ++ Base filename).length
    simp only [String.length_append]
    have h1 : "/".length = 1 := rfl
    omega

/-- Witness of `makeHandler_routes`: the start `exStart` with the file name
`/home/user/notes.txt`. -/
theorem makeHandler_routes_witness :
    exStart.file = some exFile ∧ exStart.statOk = true ∧ exStart.copyOk = true ∧
    exStart.rand = some exRand ∧ exRand.length = 32 ∧
    ∃ h, makeHandler "/home/user/notes.txt" exStart = .ok h ∧
      h.EntryURL = "/" ++ EncodeToString exRand ∧
      h.Basename = Base "/home/user/notes.txt" ∧ h.Basename ≠ "" ∧
      ('/' ∈ h.Basename.data → h.Basename = "/") ∧
      h.DownloadURL = h.EntryURL ++ "/" ++ h.Basename ∧
      (∃ t, t ≠ "" ∧ h.DownloadURL = h.EntryURL ++ t) ∧
      h.EntryURL.length < h.DownloadURL.length ∧
      h.DownloadURL ≠ h.EntryURL :=
  ⟨rfl, rfl, rfl, rfl, rfl,
    makeHandler_routes "/home/user/notes.txt" exStart exFile exRand rfl rfl rfl rfl⟩

/-- C9: when `rand.Read` filled the 32 bytes `rb`, the handler `makeHandler` returns has
`EntryURL = "/" + token` where the token has exactly 43 characters, each of them a letter
`A`-`Z` or `a`-`z`, a digit, `-` or `_` (so none is `=`, `+` or `/`); and two handlers built
from 32 bytes each that have the same `EntryURL` were built from the same 32 bytes. -/
theorem token_is_43_url_safe_chars (filename : String) (start : StartEnv) (h : Handler)
    (rb : List Nat) (hmk : makeHandler filename start = .ok h) (hrand : start.rand = some rb)
    (hlen : rb.length = 32) (hbyte : ∀ b ∈ rb, b < 256) :
    h.EntryURL = "/" ++ EncodeToString rb ∧
      (EncodeToString rb).length = 43 ∧
      (∀ c ∈ (EncodeToString rb).data,
        urlSafe c = true ∧ c ∈ encodeURL.data ∧ c ≠ '=' ∧ c ≠ '+' ∧ c ≠ '/') ∧
      (∀ (filename2 : String) (start2 : StartEnv) (h2 : Handler) (rb2 : List Nat),
        makeHandler filename2 start2 = .ok h2 → start2.rand = some rb2 →
        rb2.length = 32 → (∀ b ∈ rb2, b < 256) → h2.EntryURL = h.EntryURL → rb2 = rb) := by
  obtain ⟨rb1, hrb1, hentry, -⟩ := makeHandler_ok hmk
  rw [hrand] at hrb1
  cases hrb1
  refine ⟨hentry, ?_, ?_, ?_⟩
  · show (Encode rb).length = 43
    rw [Encode_length, hlen]
  · intro c hc
    have hmem : c ∈ encodeURL.data := Encode_mem rb c hc
    refine ⟨urlSafe_of_mem c hmem, hmem, ?_, ?_, ?_⟩ <;>
    · intro hcc
      subst hcc
      exact absurd hmem (by decide)
  · intro filename2 start2 h2 rb2 hmk2 hrand2 hlen2 hbyte2 heq
    obtain ⟨rb3, hrb3, hentry2, -⟩ := makeHandler_ok hmk2
    rw [hrand2] at hrb3
    cases hrb3
    rw [hentry, hentry2] at heq
    have hdata := congrArg String.data heq
    simp only [String.data_append, EncodeToString] at hdata
    have henc : Encode rb2 = Encode rb := List.append_cancel_left hdata
    exact Encode_inj rb2 rb (by rw [hlen, hlen2]) hbyte2 hbyte henc

/-- Witness of `token_is_43_url_safe_chars`: the bytes `exRand` of `exStart`; `exRand2`
differs from them in one bit and gives another token. -/
theorem token_is_43_url_safe_chars_witness :
    makeHandler "/home/user/notes.txt" exStart = .ok exSession ∧
    exStart.rand = some exRand ∧ exRand.length = 32 ∧ (∀ b ∈ exRand, b < 256) ∧
    exSession.EntryURL = "/" ++ EncodeToString exRand ∧
    EncodeToString exRand = "CzBVep_E6Q4zWH2ix-wRNluApcrvFDleg6jN8hc8YYY" ∧
    EncodeToString exRand2 = "CzBVep_E6Q4zWH2ix-wRNluApcrvFDleg6jN8hc8YYc" ∧
    (EncodeToString exRand).length = 43 :=
  have w := token_is_43_url_safe_chars "/home/user/notes.txt" exStart exSession exRand rfl rfl
    rfl (by decide)
  ⟨rfl, rfl, rfl, by decide, w.1, by decide, by decide, w.2.1⟩

/-! ## Facts about the lifecycle -/

theorem ServeHTTP_streamed_after (h : Handler) (d : Chan) (r : Request) (env : Env) :
    (ServeHTTP { h with Done := d } r env).streamed = (ServeHTTP h r env).streamed := by
  unfold Outcome.streamed
  rw [ServeHTTP_events_after]

theorem ServeHTTP_Done_cases (h : Handler) (r : Request) (env : Env) :
    ((ServeHTTP h r env).Done = h.Done ∧
        (h.Done = .pending → (ServeHTTP h r env).streamed = false)) ∨
      ((ServeHTTP h r env).Done = .closed ∧ h.Done = .pending ∧ r.Method = MethodGet ∧
        r.Path = h.DownloadURL ∧ (∃ file, env.file = some file) ∧
        (ServeHTTP h r env).streamed = true) := by
  unfold ServeHTTP
  by_cases hm : r.Method ≠ MethodGet
  · rw [if_pos hm]; left; exact ⟨rfl, fun _ => rfl⟩
  · rw [if_neg hm]
    by_cases h1 : r.Path = h.EntryURL
    · rw [if_pos h1]; left; exact ⟨rfl, fun _ => rfl⟩
    · rw [if_neg h1]
      by_cases h2 : r.Path = h.DownloadURL
      · rw [if_pos h2]
        unfold HandleDownload
        cases hf : env.file with
        | none => left; exact ⟨rfl, fun _ => rfl⟩
        | some file =>
          cases hd : h.Done with
          | pending =>
            right
            exact ⟨rfl, rfl, not_not.mp hm, h2, ⟨file, rfl⟩, rfl⟩
          | closed =>
            left
            exact ⟨rfl, fun hc => by cases hc⟩
      · rw [if_neg h2]; left; exact ⟨rfl, fun _ => rfl⟩

theorem timerCallback_Done (d : Chan) : (timerCallback d).Done = .closed := by
  cases d <;> rfl

theorem Inv_init (h : Handler) : Inv h (Sys.init h) := by
  refine ⟨rfl, fun _ => rfl, ?_, ?_, ?_⟩ <;> intro hc <;> cases hc

theorem NoDownload_init (h : Handler) (hd : h.Done = .pending) : NoDownload (Sys.init h) := by
  refine ⟨?_, ?_⟩
  · intro hc
    rw [Sys.init, hd] at hc
    cases hc
  · intro hc
    cases hc

theorem step_Inv {h : Handler} {s s1 : Sys} {t : Step} (hi : Inv h s)
    (hs : step s t = some s1) : Inv h s1 := by
  obtain ⟨i1, i2, i3, i4, i5⟩ := hi
  cases t with
  | request r env =>
    simp only [step] at hs
    split_ifs at hs with hp
    cases hs
    refine ⟨?_, i2, ?_, ?_, i5⟩
    · show s.handler.after _ = _
      rw [i1]; rfl
    · intro hw
      exact ⟨(i3 hw).1, ServeHTTP_Done_closed _ _ _ (i3 hw).2⟩
    · intro ha
      exact ⟨(i4 ha).1, ServeHTTP_Done_closed _ _ _ (i4 ha).2⟩
  | tick d =>
    simp only [step] at hs
    split_ifs at hs with hp
    cases hs
    refine ⟨i1, i2, i3, ?_, i5⟩
    intro ha
    exact ⟨Nat.le_trans (i4 ha).1 (Nat.le_add_right _ _), (i4 ha).2⟩
  | timer =>
    simp only [step] at hs
    by_cases hp : s.proc = .running ∧ s.timerArmed = true ∧ deadline ≤ s.now
    · rw [if_pos hp] at hs
      cases hs
      refine ⟨?_, i2, ?_, ?_, ?_⟩
      · show s.handler.after _ = _
        rw [i1]; rfl
      · intro hw
        exact ⟨(i3 hw).1, timerCallback_Done _⟩
      · intro _
        exact ⟨hp.2.2, timerCallback_Done _⟩
      · intro hx
        cases hq : (timerCallback s.handler.Done).panic.isSome <;> simp [hq] at hx
    · rw [if_neg hp] at hs
      cases hs
  | waiter =>
    simp only [step] at hs
    split_ifs at hs with hp
    cases hs
    refine ⟨i1, ?_, ?_, i4, fun _ => rfl⟩
    · intro hc
      cases hc
    · intro _
      exact ⟨by simp only [i2 hp.2.1], hp.2.2⟩
  | exit =>
    simp only [step] at hs
    split_ifs at hs with hp
    cases hs
    refine ⟨i1, i2, i3, i4, ?_⟩
    intro _
    cases hw : s.waiting with
    | false => rfl
    | true =>
      have := i2 hw
      omega

theorem run_Inv {h : Handler} (ts : List Step) : ∀ {s s1 : Sys}, Inv h s →
    run s ts = some s1 → Inv h s1 := by
  induction ts with
  | nil =>
    intro s s1 hi hr
    simp only [run, Option.some.injEq] at hr
    rw [← hr]; exact hi
  | cons t ts ih =>
    intro s s1 hi hr
    simp only [run] at hr
    cases hst : step s t with
    | none => rw [hst] at hr; cases hr
    | some s2 =>
      rw [hst] at hr
      exact ih (step_Inv hi hst) hr

theorem step_NoDownload {h : Handler} {s s1 : Sys} {t : Step} (hi : Inv h s)
    (hn : NoDownload s) (ht : t.downloads h = false) (hs : step s t = some s1) :
    NoDownload s1 := by
  obtain ⟨i1, i2, i3, i4, i5⟩ := hi
  obtain ⟨n1, n2⟩ := hn
  cases t with
  | request r env =>
    simp only [step] at hs
    split_ifs at hs with hp
    cases hs
    have hst : (ServeHTTP s.handler r env).streamed = false := by
      rw [i1, ServeHTTP_streamed_after]
      exact ht
    have hdone : (ServeHTTP s.handler r env).Done = s.handler.Done := by
      rcases ServeHTTP_Done_cases s.handler r env with hc | hc
      · exact hc.1
      · rw [hc.2.2.2.2.2] at hst
        cases hst
    refine ⟨?_, n2⟩
    intro hc
    apply n1
    rw [← hdone]
    exact hc
  | tick d =>
    simp only [step] at hs
    split_ifs at hs with hp
    cases hs
    exact ⟨n1, n2⟩
  | timer =>
    simp only [step] at hs
    by_cases hp : s.proc = .running ∧ s.timerArmed = true ∧ deadline ≤ s.now
    · rw [if_pos hp] at hs
      cases hs
      refine ⟨fun _ => rfl, ?_⟩
      have hpend : s.handler.Done = .pending := by
        cases hd : s.handler.Done with
        | pending => rfl
        | closed =>
          have := n1 hd
          rw [hp.2.1] at this
          cases this
      rw [hpend]
      simp [timerCallback_pending]
    · rw [if_neg hp] at hs
      cases hs
  | waiter =>
    simp only [step] at hs
    split_ifs at hs with hp
    cases hs
    exact ⟨n1, n2⟩
  | exit =>
    simp only [step] at hs
    split_ifs at hs with hp
    cases hs
    exact ⟨n1, by simp⟩

theorem run_NoDownload {h : Handler} (ts : List Step) : ∀ {s s1 : Sys}, Inv h s →
    NoDownload s → (∀ t ∈ ts, t.downloads h = false) → run s ts = some s1 →
    NoDownload s1 := by
  induction ts with
  | nil =>
    intro s s1 _ hn _ hr
    simp only [run, Option.some.injEq] at hr
    rw [← hr]; exact hn
  | cons t ts ih =>
    intro s s1 hi hn hall hr
    simp only [run] at hr
    cases hst : step s t with
    | none => rw [hst] at hr; cases hr
    | some s2 =>
      rw [hst] at hr
      exact ih (step_Inv hi hst)
        (step_NoDownload hi hn (hall t (List.mem_cons_self _ _)) hst)
        (fun t1 h1 => hall t1 (List.mem_cons_of_mem _ h1)) hr

theorem shutdown_step {s s1 : Sys} {t : Step} (hs : step s t = some s1)
    (hne : s1.shutdowns ≠ s.shutdowns) :
    t = .waiter ∧ s.handler.Done = .closed ∧ s1.shutdowns = s.shutdowns + 1 := by
  cases t with
  | request r env =>
    simp only [step] at hs
    split_ifs at hs
    cases hs
    exact absurd rfl hne
  | tick d =>
    simp only [step] at hs
    split_ifs at hs
    cases hs
    exact absurd rfl hne
  | timer =>
    simp only [step] at hs
    by_cases hp : s.proc = .running ∧ s.timerArmed = true ∧ deadline ≤ s.now
    · rw [if_pos hp] at hs
      cases hs
      exact absurd rfl hne
    · rw [if_neg hp] at hs
      cases hs
  | waiter =>
    simp only [step] at hs
    split_ifs at hs with hp
    cases hs
    exact ⟨rfl, hp.2.2, rfl⟩
  | exit =>
    simp only [step] at hs
    split_ifs at hs
    cases hs
    exact absurd rfl hne

theorem firing_step {s s1 : Sys} {t : Step} (hs : step s t = some s1)
    (hpend : s.handler.Done = .pending) (hclosed : s1.handler.Done = .closed) :
    (t = .timer ∧ deadline ≤ s.now) ∨
      ∃ r env file, t = .request r env ∧ r.Method = MethodGet ∧
        r.Path = s.handler.DownloadURL ∧ env.file = some file ∧
        (ServeHTTP s.handler r env).streamed = true := by
  cases t with
  | request r env =>
    simp only [step] at hs
    split_ifs at hs
    cases hs
    right
    rcases ServeHTTP_Done_cases s.handler r env with hc | hc
    · have hd : (ServeHTTP s.handler r env).Done = .closed := hclosed
      rw [hc.1, hpend] at hd
      cases hd
    · obtain ⟨-, -, hm, hpath, ⟨file, hf⟩, hst⟩ := hc
      exact ⟨r, env, file, rfl, hm, hpath, hf, hst⟩
  | tick d =>
    simp only [step] at hs
    split_ifs at hs
    cases hs
    rw [hpend] at hclosed
    cases hclosed
  | timer =>
    simp only [step] at hs
    by_cases hp : s.proc = .running ∧ s.timerArmed = true ∧ deadline ≤ s.now
    · exact Or.inl ⟨rfl, hp.2.2⟩
    · rw [if_neg hp] at hs
      cases hs
  | waiter =>
    simp only [step] at hs
    split_ifs at hs
    cases hs
    rw [hpend] at hclosed
    cases hclosed
  | exit =>
    simp only [step] at hs
    split_ifs at hs
    cases hs
    rw [hpend] at hclosed
    cases hclosed

theorem remaining_reach_shutdown {h : Handler} {s : Sys} (hi : Inv h s) (hn : NoDownload s)
    (hnow : deadline ≤ s.now) :
    ∃ s1, run s s.remaining = some s1 ∧ s1.shutdowns = 1 ∧ s1.now = s.now := by
  obtain ⟨i1, i2, i3, i4, i5⟩ := hi
  obtain ⟨n1, n2⟩ := hn
  cases hw : s.waiting with
  | false =>
    have ha : s.timerArmed = false := n1 (i3 hw).2
    refine ⟨s, ?_, (i3 hw).1, rfl⟩
    simp [Sys.remaining, hw, ha, run]
  | true =>
    have hrun : s.proc = .running := by
      cases hp : s.proc with
      | running => rfl
      | crashed => exact absurd hp n2
      | exited =>
        have := i5 hp
        rw [hw] at this
        cases this
    cases ha : s.timerArmed with
    | false =>
      have hd := (i4 ha).2
      refine ⟨{ s with waiting := false, shutdowns := s.shutdowns + 1 }, ?_, ?_, rfl⟩
      · simp [Sys.remaining, hw, ha, run, step, hrun, hd]
      · simp [i2 hw]
    | true =>
      have hd : s.handler.Done = .pending := by
        cases hd : s.handler.Done with
        | pending => rfl
        | closed =>
          have := n1 hd
          rw [ha] at this
          cases this
      refine ⟨{ s with handler := s.handler.after (timerCallback s.handler.Done)
                       timerArmed := false
                       waiting := false, shutdowns := s.shutdowns + 1 }, ?_, ?_, rfl⟩
      · simp [Sys.remaining, hw, ha, run, step, hrun, hd, hnow, timerCallback_pending,
          Handler.after]
      · simp [i2 hw]

/-- C10: in every state `s` that a run of the step relation of `main` reaches from the
handler `makeHandler` returned: (1) while `Done` is pending `server.Shutdown` has not been
called, and the only step that calls it is the wake-up of the waiting goroutine, enabled only
when `Done` is closed; (2) a step that takes `Done` from pending to closed is the timer
callback, enabled only once 24 hours have passed, or a GET for `DownloadURL` whose open
succeeded and which streamed the file; (3) in a run without a download, `Done` is closed and
`server.Shutdown` called only when 24 hours have passed, and from that time on the steps the
timer goroutine and the waiting goroutine still have to take are enabled and end with
`server.Shutdown` called, no time passing; (4) `server.Shutdown` is called at most once. -/
theorem shutdown_follows_signal (filename : String) (start : StartEnv) (h : Handler)
    (hmk : makeHandler filename start = .ok h) (ts : List Step) (s : Sys)
    (hrun : run (Sys.init h) ts = some s) :
    (s.handler.Done = .pending → s.shutdowns = 0) ∧
    (∀ t s1, step s t = some s1 → s1.shutdowns ≠ s.shutdowns →
        t = .waiter ∧ s.handler.Done = .closed ∧ s1.shutdowns = s.shutdowns + 1) ∧
    (∀ t s1, step s t = some s1 → s.handler.Done = .pending →
        s1.handler.Done = .closed →
        (t = .timer ∧ deadline ≤ s.now) ∨
        ∃ r env file, t = .request r env ∧ r.Method = MethodGet ∧
          r.Path = h.DownloadURL ∧ env.file = some file ∧
          (ServeHTTP s.handler r env).streamed = true) ∧
    ((∀ t ∈ ts, t.downloads h = false) →
        (s.handler.Done = .closed → deadline ≤ s.now) ∧
        (0 < s.shutdowns → deadline ≤ s.now) ∧
        (deadline ≤ s.now →
          ∃ s1, run s s.remaining = some s1 ∧ s1.shutdowns = 1 ∧ s1.now = s.now)) ∧
    s.shutdowns ≤ 1 := by
  obtain ⟨rb, -, -, -, -, hd, -⟩ := makeHandler_ok hmk
  have hi : Inv h s := run_Inv ts (Inv_init h) hrun
  obtain ⟨i1, i2, i3, i4, i5⟩ := hi
  have hw : s.waiting = true ∨ s.waiting = false := by
    cases s.waiting
    · exact Or.inr rfl
    · exact Or.inl rfl
  refine ⟨?_, ?_, ?_, ?_, ?_⟩
  · intro hp
    rcases hw with hw | hw
    · exact i2 hw
    · have := (i3 hw).2
      rw [hp] at this
      cases this
  · intro t s1 hs hne
    exact shutdown_step hs hne
  · intro t s1 hs hp hc
    have hurl : s.handler.DownloadURL = h.DownloadURL := by rw [i1]
    rw [← hurl]
    exact firing_step hs hp hc
  · intro hall
    have hn : NoDownload s := run_NoDownload ts (Inv_init h) (NoDownload_init h hd) hall hrun
    have hclosed : s.handler.Done = .closed → deadline ≤ s.now :=
      fun hc => (i4 (hn.1 hc)).1
    refine ⟨hclosed, ?_, ?_⟩
    · intro hpos
      rcases hw with hw | hw
      · have := i2 hw
        omega
      · exact hclosed (i3 hw).2
    · intro hnow
      exact remaining_reach_shutdown ⟨i1, i2, i3, i4, i5⟩ hn hnow
  · rcases hw with hw | hw
    · have := i2 hw
      omega
    · have := (i3 hw).1
      omega

/-- Witness of `shutdown_follows_signal`: the run `exRun` of `exSession`, in which no
download takes place and the timer fires the signal after 24 hours. -/
theorem shutdown_follows_signal_witness :
    makeHandler "/home/user/notes.txt" exStart = .ok exSession ∧
    run (Sys.init exSession) exRun = some exEnd ∧
    (∀ t ∈ exRun, t.downloads exSession = false) ∧
    exEnd.handler.Done = .closed ∧ deadline ≤ exEnd.now ∧
    (∃ s1, run exEnd exEnd.remaining = some s1 ∧ s1.shutdowns = 1 ∧ s1.now = exEnd.now) ∧
    exEnd.shutdowns ≤ 1 :=
  have w := shutdown_follows_signal "/home/user/notes.txt" exStart exSession rfl exRun exEnd rfl
  have hall : ∀ t ∈ exRun, t.downloads exSession = false := by decide
  ⟨rfl, rfl, hall, rfl, (w.2.2.2.1 hall).1 rfl, (w.2.2.2.1 hall).2.2 (Nat.le_refl _), w.2.2.2.2⟩

end Once
